import Mathlib

set_option autoImplicit false
set_option linter.unusedVariables false

/-!
Shallow embedding of the LaserWeed model-conversion scripts
(`src/models/convert_model.py` and `src/models/batch_convert.py`).

Python values that can appear inside a loaded checkpoint mapping are
modelled by `PyVal`; JSON documents by `Json`; the output directory by a
finite map from a closed set of file names to file contents.  The external
black boxes (torch.save, ultralytics YOLO load/export, the
tensorflowjs_converter subprocess) are modelled by an `Oracle` record that
fixes, for one conversion run, whether each call returns normally and which
files it produces; every theorem quantifies over all oracles.
-/

/-- Character-list helper: does the list start with the first argument? -/
def leadsWith : List Char → List Char → Bool
  | [], _ => true
  | _ :: _, [] => false
  | a :: as, b :: bs => a = b && leadsWith as bs

/-- Substring test, mirroring Python's `pat in hay` on strings. -/
def hasSubstr (pat : List Char) : List Char → Bool
  | [] => leadsWith pat []
  | c :: t => leadsWith pat (c :: t) || hasSubstr pat t

/-- Python `pat in hay` for strings. -/
def strContains (hay pat : String) : Bool :=
  hasSubstr pat.data hay.data

/-- JSON documents, as produced by `json.dump` / consumed by `json.load`. -/
inductive Json where
  | str (s : String)
  | num (q : ℚ)
  | bool (b : Bool)
  | null
  | arr (xs : List Json)
  | obj (fields : List (String × Json))

/-- Python values that can occur inside a loaded checkpoint: strings,
numbers, lists, string-keyed dicts, and opaque non-JSON-serializable
objects (tensors, nn.Module instances, ...), tagged with a description. -/
inductive PyVal where
  | str (s : String)
  | int (n : ℤ)
  | rat (q : ℚ)
  | list (xs : List PyVal)
  | dict (entries : List (String × PyVal))
  | obj (desc : String)

mutual

/-- JSON serialization of a Python value; `none` models `json.dump`
raising `TypeError` on a non-serializable object. -/
def pyToJson : PyVal → Option Json
  | .str s => some (.str s)
  | .int n => some (.num n)
  | .rat q => some (.num q)
  | .obj _ => none
  | .list xs => (pyToJsonList xs).map Json.arr
  | .dict xs => (pyToJsonDict xs).map Json.obj

/-- Serialize each element of a Python list. -/
def pyToJsonList : List PyVal → Option (List Json)
  | [] => some []
  | x :: xs =>
    match pyToJson x, pyToJsonList xs with
    | some j, some js => some (j :: js)
    | _, _ => none

/-- Serialize each entry of a string-keyed Python dict. -/
def pyToJsonDict : List (String × PyVal) → Option (List (String × Json))
  | [] => some []
  | (k, v) :: xs =>
    match pyToJson v, pyToJsonDict xs with
    | some j, some js => some ((k, j) :: js)
    | _, _ => none

end

/-- Python `len(v)`; `none` models `len` raising `TypeError`. -/
def pyLen : PyVal → Option Nat
  | .str s => some s.length
  | .list xs => some xs.length
  | .dict xs => some xs.length
  | _ => none

/-- A loaded checkpoint mapping (Python dict with string keys). -/
abbrev Ckpt := List (String × PyVal)

/-- The file names a single conversion touches: the two output descriptors,
the two temporary interim artifacts inside the output directory, and the
`.onnx` sibling of a `.pt` input file. -/
inductive FName where
  | modelJson
  | classesJson
  | tempPt
  | tempOnnx
  | inputOnnx
deriving DecidableEq

/-- File contents: a well-formed JSON document, a truncated/invalid
document (a `json.dump` that raised mid-write), or opaque binary data. -/
inductive File where
  | json (j : Json)
  | invalid
  | raw

/-- The relevant slice of the filesystem. -/
def FS := FName → Option File

/-- Empty directory. -/
def FS.empty : FS := fun _ => none

/-- Write (create or overwrite) a file. -/
def FS.write (fs : FS) (n : FName) (f : File) : FS :=
  fun m => if m = n then some f else fs m

/-- Delete a file (`Path.unlink`). -/
def FS.del (fs : FS) (n : FName) : FS :=
  fun m => if m = n then none else fs m

@[simp] theorem FS.write_self (fs : FS) (n : FName) (f : File) :
    fs.write n f n = some f := by
  simp [FS.write]

@[simp] theorem FS.write_other (fs : FS) (n m : FName) (f : File) (h : m ≠ n) :
    fs.write n f m = fs m := by
  simp [FS.write, h]

@[simp] theorem FS.del_self (fs : FS) (n : FName) : fs.del n n = none := by
  simp [FS.del]

@[simp] theorem FS.del_other (fs : FS) (n m : FName) (h : m ≠ n) :
    fs.del n m = fs m := by
  simp [FS.del, h]

/-- `json.load` on a file: succeeds exactly on well-formed documents. -/
def parseJson : File → Option Json
  | .json j => some j
  | .invalid => none
  | .raw => none

/-- Field lookup in a JSON object (first occurrence, like a Python dict). -/
def jsonGet (j : Json) (k : String) : Option Json :=
  match j with
  | .obj fields => fields.lookup k
  | _ => none

/-- Python's `k in doc` on a parsed JSON document: key test for dicts,
element test for lists, substring test for strings; `none` models the
`TypeError` raised for numbers, booleans and `None`. -/
def pyContains (j : Json) (k : String) : Option Bool :=
  match j with
  | .obj fields => some (fields.any (fun p => p.1 = k))
  | .arr xs => some (xs.any (fun x => match x with | .str s => s = k | _ => false))
  | .str s => some (strContains s k)
  | .num _ => none
  | .bool _ => none
  | .null => none

/-- The file at `n` exists and parses as well-formed JSON. -/
def hasValidJson (fs : FS) (n : FName) : Bool :=
  match fs n with
  | some f => (parseJson f).isSome
  | none => false

/-- Parsed contents of the metadata descriptor, when present and valid. -/
def classesDocOf (fs : FS) : Option Json :=
  (fs FName.classesJson).bind parseJson

/-- Stated from the claim's words, for comparison with the source's
`'classes' in config` test: the parsed document is an object carrying a
`classes` field. -/
def hasClassesFieldSpec : Json → Bool
  | .obj fields => fields.any (fun p => p.1 = "classes")
  | _ => false

/-- The information `_extract_yolov7_info` derives from a checkpoint.  In
the source this is a plain dict; `_extract_yolov7_info` always sets the
first four keys, and `_strategy_fallback_conversion` may add the last two
(which no later code reads). -/
structure ModelInfo where
  classes : PyVal
  input_size : ℤ × ℤ
  model_type : String
  variant : String
  training_epoch : Option PyVal := none
  best_fitness : Option PyVal := none

/-- Source: `ModelConverter._extract_yolov7_info` (convert_model.py,
lines 143-168).  `filename` is the input file's base name including its
extension. -/
def extractYolov7Info (filename : String) (ckpt : Ckpt) : ModelInfo :=
  let classes0 : PyVal :=
    match ckpt.lookup "names" with
    | some (.dict xs) => PyVal.list (xs.map (fun p => p.2))
    | some v => v
    | none => PyVal.list [.str "crop", .str "weed"]
  let fname := filename.toLower
  let vi : String × (ℤ × ℤ) :=
    if strContains fname "tiny" then ("tiny", (640, 640))
    else if strContains fname "x" then ("x", (640, 640))
    else if strContains fname "e6" then
      ("e6", if strContains fname "1280" then (1280, 1280) else (640, 640))
    else ("base", (640, 640))
  { classes := classes0, input_size := vi.2, model_type := "yolov7", variant := vi.1 }

/-- The `performance` tag chosen by `_generate_yolov7_classes_json`'s
dict `.get(variant, "balanced")`. -/
def perfOf (variant : String) : String :=
  if variant = "tiny" then "fast_inference"
  else if variant = "x" then "high_accuracy"
  else if variant = "e6" then "highest_accuracy"
  else "balanced"

/-- The config dict built by `_generate_yolov7_classes_json`
(convert_model.py, lines 221-234). -/
def yolov7Config (info : ModelInfo) : PyVal :=
  .dict [("classes", info.classes),
         ("modelType", .str ("yolov7-" ++ info.variant)),
         ("inputSize", .list [.int info.input_size.1, .int info.input_size.2]),
         ("threshold", .rat (35 / 100)),
         ("iouThreshold", .rat (65 / 100)),
         ("description", .str ("YOLOv7 " ++ info.variant ++ " model for crop/weed detection")),
         ("optimizedFor", .str "agricultural_detection"),
         ("performance", .str (perfOf info.variant))]

/-- Contents `classes.json` holds after `_generate_yolov7_classes_json`:
a well-formed document when `json.dump` succeeds, a truncated invalid one
when it raises on a non-serializable value (the surrounding `except` only
prints a warning and writes nothing further). -/
def classesFileFor (info : ModelInfo) : File :=
  match pyToJson (yolov7Config info) with
  | some j => .json j
  | none => .invalid

/-- Source: `ModelConverter._generate_yolov7_classes_json`
(convert_model.py, lines 218-244).  Always returns (never raises): all
internal errors are caught. -/
def generateYolov7ClassesJson (info : ModelInfo) (fs : FS) : FS :=
  fs.write .classesJson (classesFileFor info)

/-- The default YOLO config dict built by `_generate_classes_json`
(convert_model.py, lines 419-431), given the already-normalized class
value. -/
def defaultYoloConfig (classesVal : PyVal) : PyVal :=
  .dict [("classes", classesVal),
         ("modelType", .str "yolov5"),
         ("inputSize", .list [.int 640, .int 640]),
         ("anchors", .list [.list [.int 10, .int 13, .int 16, .int 30, .int 33, .int 23],
                            .list [.int 30, .int 61, .int 62, .int 45, .int 59, .int 119],
                            .list [.int 116, .int 90, .int 156, .int 198, .int 373, .int 326]]),
         ("strides", .list [.int 8, .int 16, .int 32]),
         ("threshold", .rat (1 / 2)),
         ("iouThreshold", .rat (45 / 100))]

/-- The minimal hardcoded config written by `_generate_classes_json`'s
`except` branch (convert_model.py, lines 443-449). -/
def minimalConfigJson : Json :=
  .obj [("classes", .arr [.str "weed", .str "crop"]),
        ("modelType", .str "yolo"),
        ("inputSize", .arr [.num 640, .num 640]),
        ("threshold", .num (1 / 2)),
        ("iouThreshold", .num (45 / 100))]

/-- Source: `ModelConverter._generate_classes_json` (convert_model.py,
lines 412-455).  `names` is the loaded model's `names` attribute, absent
when the model has none.  If `json.dump` of the config raises, or the
`len(config['classes'])` in the success log line raises, the `except`
branch reopens `classes.json` and writes the minimal hardcoded config over
whatever the first write left behind.  `normalizeClassNames` is the
`list(class_names.values()) if isinstance(class_names, dict) else
class_names` normalization, with `[]` when the model has no `names`
attribute. -/
def normalizeClassNames (names : Option PyVal) : PyVal :=
  match names.getD (.list []) with
  | .dict xs => .list (xs.map (fun p => p.2))
  | v => v

/-- Source: `ModelConverter._generate_classes_json` continued: the written
file, given the normalized class value. -/
def generateClassesJson (names : Option PyVal) (fs : FS) : FS :=
  let classesVal := normalizeClassNames names
  match pyToJson (defaultYoloConfig classesVal), pyLen classesVal with
  | some j, some _ => fs.write .classesJson (.json j)
  | _, _ => fs.write .classesJson (.json minimalConfigJson)

/-- Outcome of an external call that may create a file: it can return
normally, raise after having created (perhaps partially written) the
file — e.g. `torch.save` opens the target before serializing and a
pickling or disk error mid-write leaves the file behind — or raise
before the file exists. -/
inductive ExtOutcome where
  | ok
  | raiseWrote
  | raiseClean
deriving DecidableEq

/-- Behavior of the external black boxes during one conversion run:
whether each call returns normally and which files it produces.  The
file-creating calls (`torch.save`, `model.export`) use `ExtOutcome`, so a
raise may or may not leave the target file behind; loads write nothing,
and `tensorflowjs_converter` runs under `os.system`, which never raises. -/
structure Oracle where
  saveRes : ExtOutcome
  yoloLoadCkptOk : Bool
  exportCkptRes : ExtOutcome
  exportCkptWrites : Bool
  tfjsWrites : Bool
  tfjsContent : File
  yoloLoadPtOk : Bool
  exportPtRes : ExtOutcome
  exportPtWrites : Bool
  ptNames : Option PyVal

/-- Result of one strategy call as seen by the strategy loop: a returned
boolean, or an escaped exception. -/
inductive StepRes where
  | ok (b : Bool)
  | exn

/-- Mutable converter state: the output-directory slice of the filesystem
plus whether `self.temp_onnx_path` has been assigned (it only ever holds
the single value `output/temp_model.onnx`). -/
structure St where
  fs : FS
  tempOnnxSet : Bool

/-- Source: `ModelConverter._convert_onnx` (convert_model.py, lines
376-410): run `tensorflowjs_converter` via `os.system` (which never
raises) and report success iff `model.json` exists afterwards. -/
def convertOnnx (o : Oracle) (st : St) : Bool × St :=
  let st := if o.tfjsWrites then { st with fs := st.fs.write .modelJson o.tfjsContent } else st
  ((st.fs .modelJson).isSome, st)

/-- First model-bearing key of the checkpoint, in the fixed priority order
of `_strategy_ultralytics_export` (convert_model.py, lines 251-261). -/
def findModelKey (ckpt : Ckpt) : Option String :=
  ["model", "ema", "state_dict"].find? (fun k => (ckpt.lookup k).isSome)

/-- Body of the `try` block of `_strategy_ultralytics_export`
(convert_model.py, lines 291-308), entered after `temp_model.pt` was
saved. -/
def strategyUltralyticsTryBody (o : Oracle) (info : ModelInfo) (st : St) : StepRes × St :=
  if o.yoloLoadCkptOk = false then (.exn, st)
  else
    let st : St := { st with tempOnnxSet := true }
    match o.exportCkptRes with
    | .raiseClean => (.exn, st)
    | .raiseWrote => (.exn, { st with fs := st.fs.write .tempOnnx .raw })
    | .ok =>
      let st : St :=
        if o.exportCkptWrites then { st with fs := st.fs.write .tempOnnx .raw } else st
      if (st.fs .tempOnnx).isSome then
        let p := convertOnnx o st
        let st : St :=
          if p.1 then { p.2 with fs := generateYolov7ClassesJson info p.2.fs } else p.2
        (.ok p.1, st)
      else (.ok false, st)

/-- Source: `ModelConverter._strategy_ultralytics_export`
(convert_model.py, lines 246-313).  Raises `ValueError` when none of the
conventional model keys is present; otherwise saves `temp_model.pt`, runs
the `try` body, and removes `temp_model.pt` in the `finally`.  The
`torch.save` at line 289 sits before the `try`, so a save that raises
after creating the file propagates with `temp_model.pt` still on disk and
no `finally` to remove it. -/
def strategyUltralyticsExport (o : Oracle) (ckpt : Ckpt) (info : ModelInfo) (st : St) :
    StepRes × St :=
  match findModelKey ckpt with
  | none => (.exn, st)
  | some _ =>
    match o.saveRes with
    | .raiseClean => (.exn, st)
    | .raiseWrote => (.exn, { st with fs := st.fs.write .tempPt .raw })
    | .ok =>
      let st1 : St := { st with fs := st.fs.write .tempPt .raw }
      let p := strategyUltralyticsTryBody o info st1
      (p.1, { p.2 with fs := p.2.fs.del .tempPt })

/-- Source: `ModelConverter._strategy_direct_onnx_export` (convert_model.py,
lines 315-325): unconditionally raises `NotImplementedError`. -/
def strategyDirectOnnxExport (st : St) : StepRes × St := (.exn, st)

/-- Source: `ModelConverter._strategy_manual_reconstruction`
(convert_model.py, lines 327-335): unconditionally raises
`NotImplementedError`. -/
def strategyManualReconstruction (st : St) : StepRes × St := (.exn, st)

/-- The placeholder graph descriptor written by
`_strategy_fallback_conversion` (convert_model.py, lines 361-367). -/
def placeholderModelJson : Json :=
  .obj [("format", .str "graph-model"),
        ("generatedBy", .str "LaserWeed Converter (Fallback)"),
        ("convertedBy", .str "Manual Configuration"),
        ("modelTopology", .obj [("note", .str "Model conversion failed - using simple detection")]),
        ("weightsManifest", .arr [])]

/-- First class-name source among `names`, `class_names`, `classes`
(convert_model.py, lines 352-355). -/
def findClassSource (ckpt : Ckpt) : Option PyVal :=
  match ckpt.lookup "names" with
  | some v => some v
  | none =>
    match ckpt.lookup "class_names" with
    | some v => some v
    | none => ckpt.lookup "classes"

/-- Source: `ModelConverter._strategy_fallback_conversion`
(convert_model.py, lines 337-374): enrich the model info from the
checkpoint, write `classes.json` (best effort) and the placeholder
`model.json`, and return `True`. -/
def strategyFallbackConversion (ckpt : Ckpt) (info : ModelInfo) (st : St) : StepRes × St :=
  let e1 :=
    match ckpt.lookup "epoch" with
    | some v => { info with training_epoch := some v }
    | none => info
  let e2 :=
    match ckpt.lookup "best_fitness" with
    | some v => { e1 with best_fitness := some v }
    | none => e1
  let e3 :=
    match findClassSource ckpt with
    | some v => { e2 with classes := v }
    | none => e2
  let fs1 := generateYolov7ClassesJson e3 st.fs
  let fs2 := fs1.write .modelJson (.json placeholderModelJson)
  (.ok true, { st with fs := fs2 })

/-- The ordered strategy list of `_convert_yolov7_checkpoint`
(convert_model.py, lines 116-121). -/
def convertStrategies (o : Oracle) (ckpt : Ckpt) (info : ModelInfo) :
    List (St → StepRes × St) :=
  [strategyUltralyticsExport o ckpt info,
   strategyDirectOnnxExport,
   strategyManualReconstruction,
   strategyFallbackConversion ckpt info]

/-- The strategy loop of `_convert_yolov7_checkpoint` (convert_model.py,
lines 123-132): run strategies in order; the first returned `True` stops
the chain; a returned `False` or a raised exception moves on to the next
strategy. -/
def runChain : List (St → StepRes × St) → St → Bool × St
  | [], st => (false, st)
  | s :: rest, st =>
    match s st with
    | (.ok true, st') => (true, st')
    | (.ok false, st') => runChain rest st'
    | (.exn, st') => runChain rest st'

/-- The strategy loop plus the all-strategies-failed epilogue of
`_convert_yolov7_checkpoint` (convert_model.py, lines 123-137): when the
chain is exhausted without success, write a minimal `classes.json` from
the extracted model info and report failure. -/
def convertYolov7Core (strategies : List (St → StepRes × St)) (info : ModelInfo) (st : St) :
    Bool × St :=
  let r := runChain strategies st
  if r.1 then r
  else (false, { r.2 with fs := generateYolov7ClassesJson info r.2.fs })

/-- Source: `ModelConverter._convert_yolov7_checkpoint` (convert_model.py,
lines 98-141), given an already-loaded checkpoint mapping.  (The
`except` branch at line 139 only handles `torch.load` itself failing,
which is before the modelled behavior starts.) -/
def convertYolov7Checkpoint (o : Oracle) (filename : String) (ckpt : Ckpt) (st : St) :
    Bool × St :=
  let info := extractYolov7Info filename ckpt
  convertYolov7Core (convertStrategies o ckpt info) info st

/-- Source: `ModelConverter._convert_pytorch` (convert_model.py, lines
73-96): load via ultralytics, export to ONNX next to the input file, move
the export to `temp_model.onnx`, convert, and on success generate
`classes.json` from the loaded model's `names`. -/
def convertPytorch (o : Oracle) (st : St) : StepRes × St :=
  if o.yoloLoadPtOk = false then (.exn, st)
  else
    let st : St := { st with tempOnnxSet := true }
    match o.exportPtRes with
    | .raiseClean => (.exn, st)
    | .raiseWrote => (.exn, { st with fs := st.fs.write .inputOnnx .raw })
    | .ok =>
      let st : St :=
        if o.exportPtWrites then { st with fs := st.fs.write .inputOnnx .raw } else st
      let st : St :=
        if (st.fs .inputOnnx).isSome then
          { st with fs := (st.fs.del .inputOnnx).write .tempOnnx .raw }
        else st
      let p := convertOnnx o st
      let st : St :=
        if p.1 then { p.2 with fs := generateClassesJson o.ptNames p.2.fs } else p.2
      (.ok p.1, st)

/-- Source: `ModelConverter.convert` (convert_model.py, lines 48-71):
dispatch on the input extension inside a `try/except` that turns any
escaped exception into `False`, with a `finally` that unlinks
`temp_model.onnx` when `self.temp_onnx_path` was assigned and the file
exists. -/
def ModelConverter.convert (o : Oracle) (inputExt : String) (inputName : String)
    (ckpt : Ckpt) (fs₀ : FS) : Bool × FS :=
  let st₀ : St := { fs := fs₀, tempOnnxSet := false }
  let p : Bool × St :=
    if inputExt = ".pt" then
      match convertPytorch o st₀ with
      | (.ok b, st) => (b, st)
      | (.exn, st) => (false, st)
    else if inputExt = ".ckpt" then convertYolov7Checkpoint o inputName ckpt st₀
    else if inputExt = ".onnx" then convertOnnx o st₀
    else (false, st₀)
  (p.1,
   if p.2.tempOnnxSet && (p.2.fs .tempOnnx).isSome then p.2.fs.del .tempOnnx else p.2.fs)

/-- Source: `validate_model` (convert_model.py, lines 458-488): both
descriptors must exist, both must parse, and the Python membership test
`'classes' in config` must succeed; any raised error (including the
`TypeError` from `in` on a number) is caught and yields `False`. -/
def validateModel (fs : FS) : Bool :=
  match fs .modelJson with
  | none => false
  | some fm =>
    match fs .classesJson with
    | none => false
    | some fc =>
      match parseJson fm with
      | none => false
      | some _ =>
        match parseJson fc with
        | none => false
        | some jc =>
          match pyContains jc "classes" with
          | some b => b
          | none => false

/-- A candidate model file found by the batch scan: its parent directory
(as a path component list), its stem, and its extension (with dot). -/
structure MFile where
  dir : List String
  stem : String
  ext : String
deriving DecidableEq

/-- Path of the graph descriptor the batch scan probes for:
`model_file.parent / model_file.stem / "model.json"`
(batch_convert.py, lines 45-46). -/
def modelJsonPath (f : MFile) : List String :=
  f.dir ++ [f.stem, "model.json"]

/-- Source: `BatchConverter.determine_model_type` (batch_convert.py, lines
54-79), a pure function of the file name (stem+extension, lowercased) and
the exact extension. -/
def determineModelType (f : MFile) : String :=
  let name := (f.stem ++ f.ext).toLower
  if strContains name "yolov7" || f.ext = ".ckpt" then
    if strContains name "tiny" then "yolov7-tiny"
    else if strContains name "x" then "yolov7-x"
    else if strContains name "e6" then "yolov7-e6"
    else "yolov7"
  else if strContains name "yolov5" then
    if strContains name "s" then "yolov5s"
    else if strContains name "m" then "yolov5m"
    else if strContains name "l" then "yolov5l"
    else "yolov5"
  else if strContains name "yolov8" then "yolov8"
  else "unknown"

/-- One pass of the scan loop for a single extension (batch_convert.py,
lines 42-50): among the files carrying that extension, skip any whose
output directory already holds `model.json`, pairing the rest with their
classified type. -/
def scanOne (existing : List (List String)) (files : List MFile) (ext : String) :
    List (MFile × String) :=
  (files.filter (fun f => f.ext = ext)).filterMap (fun f =>
    if modelJsonPath f ∈ existing then none
    else some (f, determineModelType f))

/-- Source: `BatchConverter.scan_for_models` (batch_convert.py, lines
33-52): the extension loop over `.ckpt`, `.pt`, `.onnx` in that order.
`existing` is the set of paths currently present on disk; `files` the
files enumerated under the models directory. -/
def scanForModels (existing : List (List String)) (files : List MFile) :
    List (MFile × String) :=
  ([".ckpt", ".pt", ".onnx"].map (scanOne existing files)).flatten

/-- A fixed sample oracle used by concrete witnesses. -/
def oracle0 : Oracle :=
  { saveRes := .ok, yoloLoadCkptOk := true, exportCkptRes := .ok,
    exportCkptWrites := true, tfjsWrites := true, tfjsContent := .raw,
    yoloLoadPtOk := true, exportPtRes := .ok, exportPtWrites := true,
    ptNames := none }

/-- An empty initial converter state used by concrete witnesses. -/
def stEmpty : St := { fs := FS.empty, tempOnnxSet := false }


/-- One chain step: a strategy that raises is skipped. -/
theorem runChain_cons_exn (s : St → StepRes × St) (rest : List (St → StepRes × St))
    (st st' : St) (h : s st = (.exn, st')) :
    runChain (s :: rest) st = runChain rest st' := by
  simp [runChain, h]

/-- One chain step: a strategy returning `True` stops the chain. -/
theorem runChain_cons_true (s : St → StepRes × St) (rest : List (St → StepRes × St))
    (st st' : St) (h : s st = (.ok true, st')) :
    runChain (s :: rest) st = (true, st') := by
  simp [runChain, h]

/-- One chain step: a strategy returning `False` is skipped. -/
theorem runChain_cons_false (s : St → StepRes × St) (rest : List (St → StepRes × St))
    (st st' : St) (h : s st = (.ok false, st')) :
    runChain (s :: rest) st = runChain rest st' := by
  simp [runChain, h]

/-- C2: during conversion of a .ckpt input the four strategies are tried
strictly in the listed order (standard ultralytics export, direct ONNX
export, manual reconstruction, fallback); the first strategy returning
success terminates the chain immediately with an overall success result;
and a strategy that raises, or returns failure, moves the chain on to the
next strategy instead of aborting the conversion. -/
theorem strategy_chain_contract :
    (∀ o ckpt info, convertStrategies o ckpt info =
      [strategyUltralyticsExport o ckpt info, strategyDirectOnnxExport,
       strategyManualReconstruction, strategyFallbackConversion ckpt info]) ∧
    (∀ (s : St → StepRes × St) rest st st', s st = (.ok true, st') →
      runChain (s :: rest) st = (true, st')) ∧
    (∀ (s : St → StepRes × St) rest st st', s st = (.exn, st') →
      runChain (s :: rest) st = runChain rest st') ∧
    (∀ (s : St → StepRes × St) rest st st', s st = (.ok false, st') →
      runChain (s :: rest) st = runChain rest st') ∧
    (∀ strategies info st st', runChain strategies st = (true, st') →
      convertYolov7Core strategies info st = (true, st')) ∧
    (∀ o fname ckpt st, convertYolov7Checkpoint o fname ckpt st =
      convertYolov7Core (convertStrategies o ckpt (extractYolov7Info fname ckpt))
        (extractYolov7Info fname ckpt) st) := by
  refine ⟨fun o ckpt info => rfl, runChain_cons_true, runChain_cons_exn,
    runChain_cons_false, ?_, fun o fname ckpt st => rfl⟩
  intro strategies info st st' h
  simp [convertYolov7Core, h]

/-- Witness for `strategy_chain_contract`: a raising strategy followed by a
succeeding one yields the succeeding strategy's result. -/
theorem strategy_chain_contract_witness :
    runChain [strategyDirectOnnxExport,
              strategyFallbackConversion [] (extractYolov7Info "m.ckpt" [])] stEmpty =
      (true, (strategyFallbackConversion [] (extractYolov7Info "m.ckpt" []) stEmpty).2) := by
  have h1 := strategy_chain_contract.2.2.1 strategyDirectOnnxExport
    [strategyFallbackConversion [] (extractYolov7Info "m.ckpt" [])] stEmpty stEmpty rfl
  have h2 := strategy_chain_contract.2.1
    (strategyFallbackConversion [] (extractYolov7Info "m.ckpt" [])) [] stEmpty
    (strategyFallbackConversion [] (extractYolov7Info "m.ckpt" []) stEmpty).2 rfl
  exact h1.trans h2

/-- C8: a candidate model file whose output directory (the sibling
directory named after the file's stem) already contains `model.json` is
excluded from the batch conversion list. -/
theorem scan_skips_converted (existing : List (List String)) (files : List MFile)
    (f : MFile) (t : String) (h : modelJsonPath f ∈ existing) :
    (f, t) ∉ scanForModels existing files := by
  intro hmem
  simp only [scanForModels, List.mem_flatten, List.mem_map] at hmem
  obtain ⟨l, ⟨ext, hext, rfl⟩, hl⟩ := hmem
  simp only [scanOne, List.mem_filterMap, List.mem_filter] at hl
  obtain ⟨g, hg, hsome⟩ := hl
  by_cases hg2 : modelJsonPath g ∈ existing
  · simp [hg2] at hsome
  · simp only [hg2, if_false, Option.some.injEq, Prod.mk.injEq] at hsome
    obtain ⟨hgf, -⟩ := hsome
    subst hgf
    exact hg2 h

/-- Witness for `scan_skips_converted` at a concrete directory layout. -/
theorem scan_skips_converted_witness :
    (⟨["custom-models"], "best", ".ckpt"⟩, "yolov7") ∉
      scanForModels [["custom-models", "best", "model.json"]]
        [⟨["custom-models"], "best", ".ckpt"⟩] :=
  scan_skips_converted [["custom-models", "best", "model.json"]]
    [⟨["custom-models"], "best", ".ckpt"⟩] ⟨["custom-models"], "best", ".ckpt"⟩
    "yolov7" (by simp [modelJsonPath])

/-- A checkpoint whose `names` field is an empty mapping. -/
def emptyNamesCkpt : Ckpt := [("names", PyVal.dict [])]

/-- C4 counterexample: a loaded checkpoint whose `names` field is an empty
mapping yields a ModelInfo whose class list is the empty sequence, so the
classifier's class list is not always non-empty and the two-element
placeholder is not used whenever no class names are recoverable. -/
theorem extract_empty_names_gives_empty_classes :
    (extractYolov7Info "weights.ckpt" emptyNamesCkpt).classes = PyVal.list [] := rfl

/-- C4 amended: the class list equals the two-element placeholder default,
and in particular is non-empty, whenever the checkpoint carries no `names`
field; a present `names` field is copied through (its values, for a
mapping) and may be empty. -/
theorem classes_default_nonempty (fname : String) (ckpt : Ckpt)
    (h : ckpt.lookup "names" = none) :
    (extractYolov7Info fname ckpt).classes = PyVal.list [.str "crop", .str "weed"] ∧
    (extractYolov7Info fname ckpt).classes ≠ PyVal.list [] := by
  constructor
  · simp [extractYolov7Info, h]
  · simp [extractYolov7Info, h]

/-- Witness for `classes_default_nonempty` on a names-free checkpoint. -/
theorem classes_default_nonempty_witness :
    (extractYolov7Info "yolov7.ckpt" []).classes = PyVal.list [.str "crop", .str "weed"] ∧
    (extractYolov7Info "yolov7.ckpt" []).classes ≠ PyVal.list [] :=
  classes_default_nonempty "yolov7.ckpt" [] rfl

/-- A checkpoint carrying a one-element class-name list. -/
def weedplantCkpt : Ckpt := [("names", PyVal.list [.str "weedplant"])]

/-- C9 counterexample: two conversion attempts with the identical file name
`model.ckpt` but different checkpoint blobs produce different ModelInfo
values (their class lists differ), so the full ModelInfo is not determined
by the filename alone. -/
theorem classification_depends_on_blob :
    extractYolov7Info "model.ckpt" ([] : Ckpt) ≠
      extractYolov7Info "model.ckpt" weedplantCkpt := by
  intro h
  have h2 := congrArg (fun i => pyLen i.classes) h
  exact absurd h2 (by decide)

/-- C9 amended: the family tag, variant and input size of the classifier's
output are deterministic functions of the filename alone, and identical
filenames yield identical ModelInfo whenever the two blobs agree on their
`names` field; `determine_model_type` likewise depends only on the file
name and extension. -/
theorem classification_filename_determined :
    (∀ (fname : String) (c1 c2 : Ckpt),
      (extractYolov7Info fname c1).variant = (extractYolov7Info fname c2).variant ∧
      (extractYolov7Info fname c1).input_size = (extractYolov7Info fname c2).input_size ∧
      (extractYolov7Info fname c1).model_type = (extractYolov7Info fname c2).model_type) ∧
    (∀ (fname : String) (c1 c2 : Ckpt), c1.lookup "names" = c2.lookup "names" →
      extractYolov7Info fname c1 = extractYolov7Info fname c2) ∧
    (∀ f1 f2 : MFile, f1.stem = f2.stem → f1.ext = f2.ext →
      determineModelType f1 = determineModelType f2) := by
  refine ⟨fun fname c1 c2 => ⟨rfl, rfl, rfl⟩, ?_, ?_⟩
  · intro fname c1 c2 h
    unfold extractYolov7Info
    rw [h]
  · intro f1 f2 hs he
    unfold determineModelType
    rw [hs, he]

/-- Witness for `classification_filename_determined`: blobs agreeing on
`names` yield identical ModelInfo, and files sharing stem and extension
classify identically. -/
theorem classification_filename_determined_witness :
    extractYolov7Info "yolov7-tiny.ckpt"
        [("names", PyVal.str "ab"), ("epoch", PyVal.int 3)] =
      extractYolov7Info "yolov7-tiny.ckpt" [("names", PyVal.str "ab")] ∧
    determineModelType ⟨["a"], "yolov7x", ".pt"⟩ =
      determineModelType ⟨["b"], "yolov7x", ".pt"⟩ :=
  ⟨classification_filename_determined.2.1 "yolov7-tiny.ckpt" _ _ rfl,
   classification_filename_determined.2.2 _ _ rfl rfl⟩

/-- A ModelInfo whose class value is a non-JSON-serializable tensor, as
produced when the fallback strategy copies a raw checkpoint field. -/
def tensorClassesInfo : ModelInfo :=
  { classes := PyVal.obj "torch.Tensor", input_size := (640, 640),
    model_type := "yolov7", variant := "base" }

/-- C3 counterexample: on an internal error (`json.dump` raising on a
non-serializable class value) the YOLOv7 metadata generator only logs a
warning; it does not fall back to a minimal hardcoded descriptor, and the
`classes.json` it leaves behind is not structurally valid. -/
theorem yolov7_metadata_error_leaves_invalid_file :
    (generateYolov7ClassesJson tensorClassesInfo FS.empty) FName.classesJson =
      some File.invalid ∧
    hasValidJson (generateYolov7ClassesJson tensorClassesInfo FS.empty)
      FName.classesJson = false := by
  exact ⟨rfl, rfl⟩

/-- C3 amended: neither metadata generator ever raises out of the call
(so the overall conversion never fails because of them); the PyTorch-path
generator `_generate_classes_json` always leaves a structurally valid
`classes.json`, falling back to the minimal hardcoded two-class descriptor
on any internal error, while the YOLOv7-path generator
`_generate_yolov7_classes_json` always writes a `classes.json` file but
leaves it invalid (with no minimal fallback) when serialization raises. -/
theorem metadata_synthesizer_never_fails :
    (∀ (names : Option PyVal) (fs : FS),
      hasValidJson (generateClassesJson names fs) FName.classesJson = true) ∧
    (∀ (info : ModelInfo) (fs : FS),
      ((generateYolov7ClassesJson info fs) FName.classesJson).isSome = true) := by
  constructor
  · intro names fs
    simp only [generateClassesJson]
    split <;> simp [hasValidJson, parseJson]
  · intro info fs
    simp [generateYolov7ClassesJson]

/-- C10: when every strategy given to the chain raises, the conversion
epilogue still writes a `classes.json` derived from the extracted
ModelInfo into the output directory and returns failure. -/
theorem all_strategies_raise_still_writes_metadata
    (strategies : List (St → StepRes × St)) (fname : String) (ckpt : Ckpt) (st : St)
    (h : ∀ s ∈ strategies, ∀ st', (s st').1 = StepRes.exn) :
    (convertYolov7Core strategies (extractYolov7Info fname ckpt) st).1 = false ∧
    (convertYolov7Core strategies (extractYolov7Info fname ckpt) st).2.fs
        FName.classesJson =
      some (classesFileFor (extractYolov7Info fname ckpt)) := by
  have hchain : ∀ (l : List (St → StepRes × St)),
      (∀ s ∈ l, ∀ st', (s st').1 = StepRes.exn) →
      ∀ st : St, (runChain l st).1 = false := by
    intro l
    induction l with
    | nil => intro _ st; rfl
    | cons s t ih =>
      intro hl st
      have hs := hl s (by simp) st
      cases hss : s st with
      | mk r st' =>
        rw [hss] at hs
        cases r with
        | ok b => simp at hs
        | exn =>
          have hstep : runChain (s :: t) st = runChain t st' := by
            simp [runChain, hss]
          rw [hstep]
          exact ih (fun s hs st' => hl s (by simp [hs]) st') st'
  have hb := hchain strategies h st
  unfold convertYolov7Core
  simp only [hb, if_false, Bool.false_eq_true]
  simp [generateYolov7ClassesJson]

/-- Witness for `all_strategies_raise_still_writes_metadata` with the
always-raising direct-ONNX strategy. -/
theorem all_strategies_raise_witness :
    (convertYolov7Core [strategyDirectOnnxExport] (extractYolov7Info "m.ckpt" [])
        stEmpty).1 = false ∧
    (convertYolov7Core [strategyDirectOnnxExport] (extractYolov7Info "m.ckpt" [])
        stEmpty).2.fs FName.classesJson =
      some (classesFileFor (extractYolov7Info "m.ckpt" [])) :=
  all_strategies_raise_still_writes_metadata [strategyDirectOnnxExport] "m.ckpt" []
    stEmpty (by intro s hs st'; simp at hs; subst hs; rfl)

/-- An output directory whose metadata descriptor is a JSON string that
merely contains the characters `classes`. -/
def strClassesFS : FS :=
  (FS.empty.write .modelJson (.json (.obj []))).write .classesJson
    (.json (.str "these are not classes"))

/-- C6 counterexample: `validate_model` reports valid for a directory whose
`classes.json` parses to a bare JSON string, which has no `classes` field
at all — the Python test `'classes' in config` is a substring test there,
so validation is not equivalent to the presence of a `classes` field. -/
theorem validate_model_counterexample :
    validateModel strClassesFS = true ∧
    (classesDocOf strClassesFS).map hasClassesFieldSpec = some false := by
  exact ⟨rfl, rfl⟩

/-- C6 amended: `validate_model` returns valid iff both `model.json` and
`classes.json` exist and parse as well-formed JSON and the Python
membership test `'classes' in config` on the parsed metadata document
succeeds (a key test for objects, an element test for arrays, a substring
test for strings, and a caught `TypeError` — hence invalid — otherwise);
it performs no other checks. -/
theorem validate_model_iff (fs : FS) :
    validateModel fs = true ↔
      (∃ fm jm, fs FName.modelJson = some fm ∧ parseJson fm = some jm) ∧
      (∃ fc jc, fs FName.classesJson = some fc ∧ parseJson fc = some jc ∧
        pyContains jc "classes" = some true) := by
  constructor
  · intro h
    unfold validateModel at h
    split at h
    · simp at h
    next fm hfm =>
      split at h
      · simp at h
      next fc hfc =>
        split at h
        · simp at h
        next jm hjm =>
          split at h
          · simp at h
          next jc hjc =>
            split at h
            next b hb => exact ⟨⟨fm, jm, hfm, hjm⟩, ⟨fc, jc, hfc, hjc, by rw [hb, h]⟩⟩
            next hb => simp at h
  · rintro ⟨⟨fm, jm, hfm, hjm⟩, ⟨fc, jc, hfc, hjc, hct⟩⟩
    unfold validateModel
    simp only [hfm, hfc, hjm, hjc, hct]

/-- When the checkpoint lacks all three conventional model keys, the key
search of the standard export strategy finds nothing. -/
theorem findModelKey_none (ckpt : Ckpt) (h1 : ckpt.lookup "model" = none)
    (h2 : ckpt.lookup "ema" = none) (h3 : ckpt.lookup "state_dict" = none) :
    findModelKey ckpt = none := by
  simp [findModelKey, h1, h2, h3]

/-- With no model-bearing key, the first three strategies raise and the
checkpoint conversion is exactly the fallback strategy's outcome. -/
theorem convertYolov7Checkpoint_no_model_key (o : Oracle) (fname : String) (ckpt : Ckpt)
    (st : St) (hk : findModelKey ckpt = none) :
    convertYolov7Checkpoint o fname ckpt st =
      (true, (strategyFallbackConversion ckpt (extractYolov7Info fname ckpt) st).2) := by
  simp only [convertYolov7Checkpoint, convertYolov7Core, convertStrategies]
  rw [runChain_cons_exn _ _ _ st (by simp [strategyUltralyticsExport, hk]),
      runChain_cons_exn strategyDirectOnnxExport _ st st rfl,
      runChain_cons_exn strategyManualReconstruction _ st st rfl,
      runChain_cons_true (strategyFallbackConversion ckpt (extractYolov7Info fname ckpt)) [] st
        (strategyFallbackConversion ckpt (extractYolov7Info fname ckpt) st).2 rfl]
  rfl

/-- Extension dispatch of `ModelConverter.convert` for a `.ckpt` input. -/
theorem convert_ckpt_dispatch (o : Oracle) (fname : String) (ckpt : Ckpt) (fs₀ : FS) :
    ModelConverter.convert o ".ckpt" fname ckpt fs₀ =
      ((convertYolov7Checkpoint o fname ckpt ⟨fs₀, false⟩).1,
       if (convertYolov7Checkpoint o fname ckpt ⟨fs₀, false⟩).2.tempOnnxSet &&
           ((convertYolov7Checkpoint o fname ckpt ⟨fs₀, false⟩).2.fs FName.tempOnnx).isSome
       then (convertYolov7Checkpoint o fname ckpt ⟨fs₀, false⟩).2.fs.del FName.tempOnnx
       else (convertYolov7Checkpoint o fname ckpt ⟨fs₀, false⟩).2.fs) := rfl

/-- C1: for a checkpoint loaded from a `.ckpt` input as a mapping with
none of the model-bearing fields `model`, `ema`, `state_dict`, the
strategy chain falls through to the fallback strategy, which writes the
placeholder graph descriptor `model.json` and a (best-effort) metadata
descriptor `classes.json` into the output directory, and the conversion
returns success (no exception escapes: the embedded conversion is a total
function into `Bool`). -/
theorem fallback_on_unrecognized_checkpoint (o : Oracle) (fname : String) (ckpt : Ckpt)
    (fs₀ : FS) (h1 : ckpt.lookup "model" = none) (h2 : ckpt.lookup "ema" = none)
    (h3 : ckpt.lookup "state_dict" = none) :
    (ModelConverter.convert o ".ckpt" fname ckpt fs₀).1 = true ∧
    (ModelConverter.convert o ".ckpt" fname ckpt fs₀).2 FName.modelJson =
      some (File.json placeholderModelJson) ∧
    ((ModelConverter.convert o ".ckpt" fname ckpt fs₀).2 FName.classesJson).isSome = true := by
  have hk := findModelKey_none ckpt h1 h2 h3
  rw [convert_ckpt_dispatch]
  rw [convertYolov7Checkpoint_no_model_key o fname ckpt ⟨fs₀, false⟩ hk]
  simp [strategyFallbackConversion, generateYolov7ClassesJson]

/-- Witness for `fallback_on_unrecognized_checkpoint` on an empty
checkpoint mapping. -/
theorem fallback_on_unrecognized_checkpoint_witness :
    (ModelConverter.convert oracle0 ".ckpt" "unknown_model.ckpt" [] FS.empty).1 = true ∧
    (ModelConverter.convert oracle0 ".ckpt" "unknown_model.ckpt" [] FS.empty).2
        FName.modelJson = some (File.json placeholderModelJson) ∧
    ((ModelConverter.convert oracle0 ".ckpt" "unknown_model.ckpt" [] FS.empty).2
        FName.classesJson).isSome = true :=
  fallback_on_unrecognized_checkpoint oracle0 "unknown_model.ckpt" [] FS.empty rfl rfl rfl

/-- Serialization preserves list length. -/
theorem pyToJsonList_length (xs : List PyVal) (ys : List Json)
    (h : pyToJsonList xs = some ys) : ys.length = xs.length := by
  induction xs generalizing ys with
  | nil =>
    simp only [pyToJsonList, Option.some.injEq] at h
    subst h
    rfl
  | cons x t ih =>
    simp only [pyToJsonList] at h
    cases hx : pyToJson x with
    | none => rw [hx] at h; simp at h
    | some jx =>
      rw [hx] at h
      cases ht : pyToJsonList t with
      | none => rw [ht] at h; simp at h
      | some jt =>
        rw [ht] at h
        simp only [Option.some.injEq] at h
        subst h
        simp [ih jt ht]

/-- A non-serializable class value makes the whole YOLOv7 config dict
non-serializable. -/
theorem yolov7Config_not_serialized (info : ModelInfo)
    (h : pyToJson info.classes = none) :
    pyToJson (yolov7Config info) = none := by
  simp [yolov7Config, pyToJson, pyToJsonDict, h]

/-- Shape of the serialized YOLOv7 config dict. -/
theorem yolov7Config_serialized (info : ModelInfo) (jc : Json)
    (h : pyToJson info.classes = some jc) :
    pyToJson (yolov7Config info) = some (Json.obj
      [("classes", jc),
       ("modelType", .str ("yolov7-" ++ info.variant)),
       ("inputSize", .arr [.num info.input_size.1, .num info.input_size.2]),
       ("threshold", .num (35 / 100)),
       ("iouThreshold", .num (65 / 100)),
       ("description", .str ("YOLOv7 " ++ info.variant ++ " model for crop/weed detection")),
       ("optimizedFor", .str "agricultural_detection"),
       ("performance", .str (perfOf info.variant))]) := by
  simp [yolov7Config, pyToJson, pyToJsonDict, pyToJsonList, h]

/-- A non-serializable class value makes the default YOLO config dict
non-serializable. -/
theorem defaultYoloConfig_not_serialized (cv : PyVal) (h : pyToJson cv = none) :
    pyToJson (defaultYoloConfig cv) = none := by
  simp [defaultYoloConfig, pyToJson, pyToJsonDict, h]

/-- Shape of the serialized default YOLO config dict. -/
theorem defaultYoloConfig_serialized (cv : PyVal) (jc : Json)
    (h : pyToJson cv = some jc) :
    pyToJson (defaultYoloConfig cv) = some (Json.obj
      [("classes", jc),
       ("modelType", .str "yolov5"),
       ("inputSize", .arr [.num 640, .num 640]),
       ("anchors", .arr [.arr [.num 10, .num 13, .num 16, .num 30, .num 33, .num 23],
                         .arr [.num 30, .num 61, .num 62, .num 45, .num 59, .num 119],
                         .arr [.num 116, .num 90, .num 156, .num 198, .num 373, .num 326]]),
       ("strides", .arr [.num 8, .num 16, .num 32]),
       ("threshold", .num (1 / 2)),
       ("iouThreshold", .num (45 / 100))]) := by
  simp [defaultYoloConfig, pyToJson, pyToJsonDict, pyToJsonList, h]

/-- C5 counterexample: the metadata descriptor written for a checkpoint
whose `names` field is an empty mapping re-parses with an empty `classes`
list, so written descriptors do not always carry a non-empty class list. -/
theorem metadata_written_empty_classes :
    (classesDocOf (generateYolov7ClassesJson (extractYolov7Info "best2.ckpt" emptyNamesCkpt)
        FS.empty)).bind (fun j => jsonGet j "classes") = some (Json.arr []) := rfl

/-- C5 amended: every well-formed metadata descriptor written by either
generator carries `threshold` and `iouThreshold` fields whose values lie
in [0,1] (0.35/0.65 on the YOLOv7 path, 0.5/0.45 on the PyTorch path,
including the minimal fallback); its `classes` field is non-empty
provided the supplied ModelInfo class list is a non-empty list — but an
empty recovered class list is written through as an empty `classes`
array. -/
theorem metadata_roundtrip_amended :
    (∀ (info : ModelInfo) (fs : FS) (j : Json),
      (generateYolov7ClassesJson info fs) FName.classesJson = some (File.json j) →
      jsonGet j "threshold" = some (.num (35 / 100)) ∧
      jsonGet j "iouThreshold" = some (.num (65 / 100)) ∧
      (0 : ℚ) ≤ 35 / 100 ∧ (35 : ℚ) / 100 ≤ 1 ∧ (0 : ℚ) ≤ 65 / 100 ∧ (65 : ℚ) / 100 ≤ 1 ∧
      (∀ xs, info.classes = PyVal.list xs → xs ≠ [] →
        ∃ ys, jsonGet j "classes" = some (Json.arr ys) ∧ ys ≠ [])) ∧
    (∀ (names : Option PyVal) (fs : FS) (j : Json),
      (generateClassesJson names fs) FName.classesJson = some (File.json j) →
      jsonGet j "threshold" = some (.num (1 / 2)) ∧
      jsonGet j "iouThreshold" = some (.num (45 / 100)) ∧
      (0 : ℚ) ≤ 1 / 2 ∧ (1 : ℚ) / 2 ≤ 1 ∧ (0 : ℚ) ≤ 45 / 100 ∧ (45 : ℚ) / 100 ≤ 1) := by
  constructor
  · intro info fs j h
    simp only [generateYolov7ClassesJson, FS.write_self, Option.some.injEq] at h
    cases hcc : pyToJson info.classes with
    | none =>
      rw [classesFileFor, yolov7Config_not_serialized info hcc] at h
      simp at h
    | some jc =>
      rw [classesFileFor, yolov7Config_serialized info jc hcc] at h
      simp only [File.json.injEq] at h
      subst h
      refine ⟨rfl, rfl, by norm_num, by norm_num, by norm_num, by norm_num, ?_⟩
      intro xs hxs hne
      rw [hxs] at hcc
      simp only [pyToJson] at hcc
      cases hys : pyToJsonList xs with
      | none => rw [hys] at hcc; simp at hcc
      | some ys =>
        rw [hys] at hcc
        simp only [Option.map_some', Option.some.injEq] at hcc
        refine ⟨ys, by rw [← hcc]; rfl, ?_⟩
        intro hempty
        have hlen := pyToJsonList_length xs ys hys
        rw [hempty] at hlen
        simp only [List.length_nil] at hlen
        exact hne (List.length_eq_zero.mp hlen.symm)
  · intro names fs j h
    simp only [generateClassesJson] at h
    cases hA : pyToJson (defaultYoloConfig (normalizeClassNames names)) with
    | none =>
      rw [hA] at h
      simp only [FS.write_self, Option.some.injEq, File.json.injEq] at h
      subst h
      exact ⟨rfl, rfl, by norm_num, by norm_num, by norm_num, by norm_num⟩
    | some j' =>
      cases hB : pyLen (normalizeClassNames names) with
      | none =>
        rw [hA, hB] at h
        simp only [FS.write_self, Option.some.injEq, File.json.injEq] at h
        subst h
        exact ⟨rfl, rfl, by norm_num, by norm_num, by norm_num, by norm_num⟩
      | some len =>
        rw [hA, hB] at h
        simp only [FS.write_self, Option.some.injEq, File.json.injEq] at h
        cases hc : pyToJson (normalizeClassNames names) with
        | none => rw [defaultYoloConfig_not_serialized _ hc] at hA; simp at hA
        | some jc =>
          rw [defaultYoloConfig_serialized _ jc hc] at hA
          simp only [Option.some.injEq] at hA
          subst hA
          subst h
          exact ⟨rfl, rfl, by norm_num, by norm_num, by norm_num, by norm_num⟩

/-- A sample ModelInfo with the default two-element class list. -/
def infoW : ModelInfo :=
  { classes := .list [.str "crop", .str "weed"], input_size := (640, 640),
    model_type := "yolov7", variant := "base" }

/-- The serialized metadata document for `infoW`. -/
def sampleYolov7Doc : Json :=
  .obj [("classes", .arr [.str "crop", .str "weed"]),
        ("modelType", .str "yolov7-base"),
        ("inputSize", .arr [.num ((640 : ℤ) : ℚ), .num ((640 : ℤ) : ℚ)]),
        ("threshold", .num (35 / 100)),
        ("iouThreshold", .num (65 / 100)),
        ("description", .str "YOLOv7 base model for crop/weed detection"),
        ("optimizedFor", .str "agricultural_detection"),
        ("performance", .str "balanced")]

/-- Witness for `metadata_roundtrip_amended` at a concrete ModelInfo. -/
theorem metadata_roundtrip_amended_witness :
    jsonGet sampleYolov7Doc "threshold" = some (.num (35 / 100)) ∧
    ∃ ys, jsonGet sampleYolov7Doc "classes" = some (Json.arr ys) ∧ ys ≠ [] := by
  have h := metadata_roundtrip_amended.1 infoW FS.empty sampleYolov7Doc (by rfl)
  exact ⟨h.1, h.2.2.2.2.2.2 [.str "crop", .str "weed"] rfl (by simp)⟩

/-- Temp-artifact invariant, guarded by a proposition `P` (instantiated
with "this run's `torch.save` did not raise after creating its file", the
one condition under which the source has no cleanup path for
`temp_model.pt`): under `P`, `temp_model.pt` is absent; and
`temp_model.onnx` is absent unless `self.temp_onnx_path` was assigned. -/
def TempInv (P : Prop) (st : St) : Prop :=
  (P → st.fs FName.tempPt = none) ∧
  (st.tempOnnxSet = false → st.fs FName.tempOnnx = none)

/-- `_convert_onnx` only ever writes `model.json`. -/
theorem convertOnnx_frame (o : Oracle) (st : St) :
    (convertOnnx o st).2.fs FName.tempPt = st.fs FName.tempPt ∧
    (convertOnnx o st).2.fs FName.tempOnnx = st.fs FName.tempOnnx ∧
    (convertOnnx o st).2.tempOnnxSet = st.tempOnnxSet := by
  unfold convertOnnx
  by_cases h : o.tfjsWrites <;> simp [h]

/-- `_generate_yolov7_classes_json` only ever writes `classes.json`. -/
theorem generateYolov7ClassesJson_frame (info : ModelInfo) (fs : FS) :
    (generateYolov7ClassesJson info fs) FName.tempPt = fs FName.tempPt ∧
    (generateYolov7ClassesJson info fs) FName.tempOnnx = fs FName.tempOnnx := by
  simp [generateYolov7ClassesJson]

/-- `_generate_classes_json` only ever writes `classes.json`. -/
theorem generateClassesJson_frame (names : Option PyVal) (fs : FS) :
    (generateClassesJson names fs) FName.tempPt = fs FName.tempPt ∧
    (generateClassesJson names fs) FName.tempOnnx = fs FName.tempOnnx := by
  simp only [generateClassesJson]
  cases pyToJson (defaultYoloConfig (normalizeClassNames names)) <;>
    cases pyLen (normalizeClassNames names) <;> simp

/-- Frame of the standard-export `try` body: `temp_model.pt` is untouched,
and when the body exits without having assigned `self.temp_onnx_path`
(so only via the load failure) the state is unchanged entirely. -/
theorem tryBody_frame (o : Oracle) (info : ModelInfo) (st : St) :
    (strategyUltralyticsTryBody o info st).2.fs FName.tempPt = st.fs FName.tempPt ∧
    ((strategyUltralyticsTryBody o info st).2.tempOnnxSet = false →
      (strategyUltralyticsTryBody o info st).2.fs FName.tempOnnx = st.fs FName.tempOnnx ∧
      (strategyUltralyticsTryBody o info st).2.tempOnnxSet = st.tempOnnxSet) := by
  unfold strategyUltralyticsTryBody
  by_cases h1 : o.yoloLoadCkptOk = false
  · simp [h1]
  · cases h2 : o.exportCkptRes with
    | raiseClean => simp [h1]
    | raiseWrote => simp [h1]
    | ok =>
      by_cases h3 : o.exportCkptWrites
      · have hco := convertOnnx_frame o ⟨(st.fs.write FName.tempOnnx File.raw), true⟩
        by_cases h4 : (convertOnnx o ⟨(st.fs.write FName.tempOnnx File.raw), true⟩).1 <;>
          simp [h1, h3, h4, generateYolov7ClassesJson, hco.1, hco.2.2]
      · by_cases h5 : (st.fs FName.tempOnnx).isSome
        · have hco := convertOnnx_frame o ⟨st.fs, true⟩
          by_cases h4 : (convertOnnx o ⟨st.fs, true⟩).1 <;>
            simp [h1, h3, h4, h5, generateYolov7ClassesJson, hco.1, hco.2.2]
        · simp [h1, h3, h5]

/-- The standard export strategy preserves the guarded temp-artifact
invariant: its `finally` removes `temp_model.pt` on every exit from the
`try` body, `temp_model.onnx` is only ever created after
`self.temp_onnx_path` is assigned — but the `torch.save` preceding the
`try` may raise having created `temp_model.pt`, so the `temp_model.pt`
conclusion needs the guard to exclude that outcome. -/
theorem strategy1_tempInv (o : Oracle) (ckpt : Ckpt) (info : ModelInfo) (st : St)
    (P : Prop) (hP : P → o.saveRes ≠ ExtOutcome.raiseWrote) (h : TempInv P st) :
    TempInv P (strategyUltralyticsExport o ckpt info st).2 := by
  obtain ⟨hpt, honnx⟩ := h
  unfold strategyUltralyticsExport
  cases hk : findModelKey ckpt with
  | none => exact ⟨hpt, honnx⟩
  | some k =>
    cases hs : o.saveRes with
    | raiseClean => exact ⟨hpt, honnx⟩
    | raiseWrote =>
      refine ⟨fun hp => absurd hs (hP hp), fun hset => ?_⟩
      simp only at hset
      simp [honnx hset]
    | ok =>
      have hfr := tryBody_frame o info ⟨st.fs.write FName.tempPt File.raw, st.tempOnnxSet⟩
      constructor
      · intro _
        simp
      · intro hset
        simp only at hset
        obtain ⟨ho, hsame⟩ := hfr.2 hset
        simp only at ho hsame
        have hnone : (strategyUltralyticsTryBody o info
            ⟨st.fs.write FName.tempPt File.raw, st.tempOnnxSet⟩).2.fs FName.tempOnnx = none := by
          rw [ho]
          simp [honnx (hsame ▸ hset)]
        simp [hnone]

/-- The fallback strategy only writes the two descriptors, so it preserves
the guarded temp-artifact invariant. -/
theorem fallback_tempInv (ckpt : Ckpt) (info : ModelInfo) (st : St) (P : Prop)
    (h : TempInv P st) : TempInv P (strategyFallbackConversion ckpt info st).2 := by
  obtain ⟨hpt, honnx⟩ := h
  unfold strategyFallbackConversion generateYolov7ClassesJson
  exact ⟨fun hp => by simp [hpt hp], fun hs => by simp [honnx hs]⟩

/-- The strategy loop preserves the guarded temp-artifact invariant when
each strategy does. -/
theorem runChain_tempInv (l : List (St → StepRes × St)) (P : Prop)
    (hl : ∀ s ∈ l, ∀ st, TempInv P st → TempInv P (s st).2)
    (st : St) (h : TempInv P st) : TempInv P (runChain l st).2 := by
  induction l generalizing st with
  | nil => exact h
  | cons s t ih =>
    have hs := hl s (by simp) st h
    cases hss : s st with
    | mk r st' =>
      rw [hss] at hs
      cases r with
      | ok b =>
        cases b
        · rw [runChain_cons_false s t st st' hss]
          exact ih (fun u hu => hl u (by simp [hu])) st' hs
        · rw [runChain_cons_true s t st st' hss]
          exact hs
      | exn =>
        rw [runChain_cons_exn s t st st' hss]
        exact ih (fun u hu => hl u (by simp [hu])) st' hs

/-- The chain executor with its all-failed epilogue preserves the guarded
temp-artifact invariant. -/
theorem core_tempInv (strategies : List (St → StepRes × St)) (info : ModelInfo) (st : St)
    (P : Prop) (hl : ∀ s ∈ strategies, ∀ st, TempInv P st → TempInv P (s st).2)
    (h : TempInv P st) : TempInv P (convertYolov7Core strategies info st).2 := by
  have hc := runChain_tempInv strategies P hl st h
  unfold convertYolov7Core
  by_cases hr : (runChain strategies st).1 = true
  · simp only [hr, if_true]
    exact hc
  · simp only [hr, if_false]
    exact ⟨fun hp => by simp [generateYolov7ClassesJson, hc.1 hp],
           fun hs => by simp [generateYolov7ClassesJson, hc.2 hs]⟩

/-- The whole `.ckpt` conversion preserves the guarded temp-artifact
invariant. -/
theorem convertYolov7Checkpoint_tempInv (o : Oracle) (fname : String) (ckpt : Ckpt)
    (st : St) (P : Prop) (hP : P → o.saveRes ≠ ExtOutcome.raiseWrote)
    (h : TempInv P st) : TempInv P (convertYolov7Checkpoint o fname ckpt st).2 := by
  unfold convertYolov7Checkpoint
  refine core_tempInv _ _ _ P ?_ h
  intro s hsmem
  simp only [convertStrategies, List.mem_cons, List.not_mem_nil, or_false] at hsmem
  rcases hsmem with rfl | rfl | rfl | rfl
  · exact fun st h => strategy1_tempInv o ckpt _ st P hP h
  · exact fun st h => h
  · exact fun st h => h
  · exact fun st h => fallback_tempInv ckpt _ st P h

/-- Frame of the `.pt` conversion: it never touches `temp_model.pt`, and
it only ever creates `temp_model.onnx` after assigning
`self.temp_onnx_path`. -/
theorem convertPytorch_frame (o : Oracle) (st : St) :
    (convertPytorch o st).2.fs FName.tempPt = st.fs FName.tempPt ∧
    ((convertPytorch o st).2.tempOnnxSet = false →
      (convertPytorch o st).2.fs FName.tempOnnx = st.fs FName.tempOnnx ∧
      (convertPytorch o st).2.tempOnnxSet = st.tempOnnxSet) := by
  unfold convertPytorch
  by_cases h1 : o.yoloLoadPtOk = false
  · simp [h1]
  · cases h2 : o.exportPtRes with
    | raiseClean => simp [h1]
    | raiseWrote => simp [h1]
    | ok =>
      by_cases h3 : o.exportPtWrites
      · have hco := convertOnnx_frame o
          ⟨((st.fs.write FName.inputOnnx File.raw).del FName.inputOnnx).write FName.tempOnnx File.raw, true⟩
        by_cases h4 : (convertOnnx o
            ⟨((st.fs.write FName.inputOnnx File.raw).del FName.inputOnnx).write FName.tempOnnx File.raw, true⟩).1 <;>
          simp [h1, h3, h4, hco.1, hco.2.2, generateClassesJson_frame]
      · by_cases h5 : (st.fs FName.inputOnnx).isSome
        · have hco := convertOnnx_frame o
            ⟨(st.fs.del FName.inputOnnx).write FName.tempOnnx File.raw, true⟩
          by_cases h4 : (convertOnnx o
              ⟨(st.fs.del FName.inputOnnx).write FName.tempOnnx File.raw, true⟩).1 <;>
            simp [h1, h3, h4, h5, hco.1, hco.2.2, generateClassesJson_frame]
        · have hco := convertOnnx_frame o ⟨st.fs, true⟩
          by_cases h4 : (convertOnnx o ⟨st.fs, true⟩).1 <;>
            simp [h1, h3, h4, h5, hco.1, hco.2.2, generateClassesJson_frame]

/-- The `.pt` conversion preserves the guarded temp-artifact invariant. -/
theorem convertPytorch_tempInv (o : Oracle) (st : St) (P : Prop)
    (h : TempInv P st) : TempInv P (convertPytorch o st).2 := by
  have hfr := convertPytorch_frame o st
  refine ⟨fun hp => hfr.1.trans (h.1 hp), fun hset => ?_⟩
  obtain ⟨ho, hsame⟩ := hfr.2 hset
  rw [ho]
  exact h.2 (hsame ▸ hset)

/-- The `.onnx` direct path preserves the guarded temp-artifact
invariant. -/
theorem convertOnnx_tempInv (o : Oracle) (st : St) (P : Prop)
    (h : TempInv P st) : TempInv P (convertOnnx o st).2 := by
  have hco := convertOnnx_frame o st
  exact ⟨fun hp => hco.1.trans (h.1 hp),
         fun hs => (hco.2.1.trans (h.2 (hco.2.2.symm.trans hs)))⟩

/-- Final `finally` cleanup of `ModelConverter.convert`: from a state
satisfying the guarded temp-artifact invariant, the returned directory
never holds `temp_model.onnx`, and holds no `temp_model.pt` under the
guard. -/
theorem convert_cleanup (P : Prop) (p : Bool × St) (h : TempInv P p.2) :
    (P →
      (if p.2.tempOnnxSet && (p.2.fs FName.tempOnnx).isSome then p.2.fs.del FName.tempOnnx
       else p.2.fs) FName.tempPt = none) ∧
    (if p.2.tempOnnxSet && (p.2.fs FName.tempOnnx).isSome then p.2.fs.del FName.tempOnnx
     else p.2.fs) FName.tempOnnx = none := by
  obtain ⟨hcpt, hconnx⟩ := h
  constructor
  · intro hp
    by_cases hcond : (p.2.tempOnnxSet && (p.2.fs FName.tempOnnx).isSome) = true
    · rw [if_pos hcond]
      simp [hcpt hp]
    · rw [if_neg hcond]
      exact hcpt hp
  · by_cases hcond : (p.2.tempOnnxSet && (p.2.fs FName.tempOnnx).isSome) = true
    · rw [if_pos hcond]
      simp
    · rw [if_neg hcond]
      rw [Bool.and_eq_true] at hcond
      by_cases hset : p.2.tempOnnxSet = true
      · have hb : (p.2.fs FName.tempOnnx).isSome = false := by
          cases hx : (p.2.fs FName.tempOnnx).isSome
          · rfl
          · exact absurd ⟨hset, hx⟩ hcond
        exact Option.not_isSome_iff_eq_none.mp (by simp [hb])
      · have hf : p.2.tempOnnxSet = false := by
          cases hx : p.2.tempOnnxSet
          · rfl
          · exact absurd hx hset
        exact hconnx hf

/-- An oracle on which `torch.save` raises after creating its file, as a
pickling or disk error mid-write does. -/
def oracleLeak : Oracle :=
  { saveRes := .raiseWrote, yoloLoadCkptOk := true, exportCkptRes := .ok,
    exportCkptWrites := true, tfjsWrites := true, tfjsContent := .raw,
    yoloLoadPtOk := true, exportPtRes := .ok, exportPtWrites := true,
    ptNames := none }

/-- C7 counterexample: `torch.save` (convert_model.py:289) runs before the
`try/finally` of the standard export strategy, so on a run where it raises
after creating `temp_model.pt` the exception is caught by the strategy
loop, no later code deletes the file, and the conversion returns with
`temp_model.pt` still in the output directory. -/
theorem temp_pt_survives_failed_save :
    (ModelConverter.convert oracleLeak ".ckpt" "yolov7-weed.ckpt"
        [("model", PyVal.obj "nn.Module")] FS.empty).2 FName.tempPt = some File.raw := rfl

/-- C7 amended: on every exit path of a conversion started without stale
temp files, the interim `temp_model.onnx` tracked by the converter no
longer exists when the conversion returns; and the interim `temp_model.pt`
written by the standard export strategy no longer exists provided this
run's `torch.save` did not raise after creating the file — the save
precedes the strategy's `try/finally`, so that one outcome leaves
`temp_model.pt` behind. -/
theorem temp_artifacts_removed (o : Oracle) (ext fname : String) (ckpt : Ckpt) (fs₀ : FS)
    (h1 : fs₀ FName.tempPt = none) (h2 : fs₀ FName.tempOnnx = none) :
    (ModelConverter.convert o ext fname ckpt fs₀).2 FName.tempOnnx = none ∧
    (o.saveRes ≠ ExtOutcome.raiseWrote →
      (ModelConverter.convert o ext fname ckpt fs₀).2 FName.tempPt = none) := by
  have h0 : TempInv (o.saveRes ≠ ExtOutcome.raiseWrote) ⟨fs₀, false⟩ :=
    ⟨fun _ => h1, fun _ => h2⟩
  have hbody : TempInv (o.saveRes ≠ ExtOutcome.raiseWrote)
      (if ext = ".pt" then
        match convertPytorch o ⟨fs₀, false⟩ with
        | (.ok b, st) => (b, st)
        | (.exn, st) => (false, st)
      else if ext = ".ckpt" then convertYolov7Checkpoint o fname ckpt ⟨fs₀, false⟩
      else if ext = ".onnx" then convertOnnx o ⟨fs₀, false⟩
      else (false, ⟨fs₀, false⟩) : Bool × St).2 := by
    by_cases e1 : ext = ".pt"
    · rw [if_pos e1]
      have hp := convertPytorch_tempInv o ⟨fs₀, false⟩ _ h0
      cases hc : convertPytorch o ⟨fs₀, false⟩ with
      | mk r st =>
        rw [hc] at hp
        cases r with
        | ok b => exact hp
        | exn => exact hp
    · rw [if_neg e1]
      by_cases e2 : ext = ".ckpt"
      · rw [if_pos e2]
        exact convertYolov7Checkpoint_tempInv o fname ckpt ⟨fs₀, false⟩ _ (fun hp => hp) h0
      · rw [if_neg e2]
        by_cases e3 : ext = ".onnx"
        · rw [if_pos e3]
          exact convertOnnx_tempInv o ⟨fs₀, false⟩ _ h0
        · rw [if_neg e3]
          exact h0
  exact ⟨(convert_cleanup _ _ hbody).2, fun hs => (convert_cleanup _ _ hbody).1 hs⟩

/-- Witness for `temp_artifacts_removed` at a concrete conversion run
whose `torch.save` returns normally. -/
theorem temp_artifacts_removed_witness :
    (ModelConverter.convert oracle0 ".ckpt" "yolov7-weed.ckpt"
        [("model", PyVal.obj "nn.Module")] FS.empty).2 FName.tempOnnx = none ∧
    (ModelConverter.convert oracle0 ".ckpt" "yolov7-weed.ckpt"
        [("model", PyVal.obj "nn.Module")] FS.empty).2 FName.tempPt = none :=
  ⟨(temp_artifacts_removed oracle0 ".ckpt" "yolov7-weed.ckpt"
      [("model", PyVal.obj "nn.Module")] FS.empty rfl rfl).1,
   (temp_artifacts_removed oracle0 ".ckpt" "yolov7-weed.ckpt"
      [("model", PyVal.obj "nn.Module")] FS.empty rfl rfl).2 (by decide)⟩
